import Mathlib

/-!  Verification development for the o2acq synchronization core.

The definitions below are a shallow embedding of:
  * src/controllers/nidaq_controller.py  (NIDAQController.start_task,
    _generate_pattern, stop_task) — the waveform compiler / trigger sequencer;
  * src/services/image_acquisition.py    (ImageAcquisitionService.run,
    set_frame_timeout, get_statistics) — the acquisition loop and rate monitor;
  * src/o2acq.py                         (validate_exposure_time) — exposure clamping.

Python floats are modelled as exact rationals (ℚ); for the magnitudes this
program manipulates (frequencies 0.5–30 Hz, millisecond counts below 10^4)
the double-precision results and the exact rational results truncate to the
same integers, so the model is faithful on the reachable inputs.
Python `int(x)` truncates toward zero, which `pyInt` mirrors.
-/

namespace O2acq

/-- Python `int()` applied to a float: truncation toward zero. -/
def pyInt (q : ℚ) : ℤ := if q < 0 then -⌊-q⌋ else ⌊q⌋

/-! ## nidaq_controller.py : waveform compilation -/

/-- `sum(modes[:3])` — the number of active modes (nidaq_controller.py line 34). -/
def num_active_modes (modes : List Bool) : ℕ :=
  ((modes.take 3).filter (fun b => b)).length

/-- `mode_frequency = frequency if num_active_modes <= 1 else frequency / num_active_modes`
(nidaq_controller.py line 36). -/
def mode_frequency (f : ℚ) (n : ℕ) : ℚ :=
  if n ≤ 1 then f else f / n

/-- `period = 1.0 / mode_frequency; samples_per_period = int(1000 * period)`
(nidaq_controller.py lines 37–38). -/
def samples_per_period (f : ℚ) (n : ℕ) : ℤ :=
  pyInt (1000 * (1 / mode_frequency f n))

/-- `active_modes = [i for i, mode in enumerate(modes[:3]) if mode]`, with the
running enumeration index made explicit (nidaq_controller.py line 89). -/
def active_modes_from : ℕ → List Bool → List ℕ
  | _, [] => []
  | i, b :: rest =>
      if b then i :: active_modes_from (i + 1) rest else active_modes_from (i + 1) rest

/-- The list of active mode indices, drawn from the first three flags. -/
def active_modes (modes : List Bool) : List ℕ :=
  active_modes_from 0 (modes.take 3)

/-- One guarded OR-assignment: `if pos < samples_per_period: pattern[pos] |= v`. -/
def orInto (l : List ℕ) (pos v spp : ℕ) : List ℕ :=
  if pos < spp then l.set pos (l.getD pos 0 ||| v) else l

/-- `for i in range(exp_samples): if (start_pos + i) < samples_per_period:
pattern[start_pos + i] |= v` (nidaq_controller.py lines 106–108 and 112–114).
A negative Python `range` argument iterates zero times, hence `.toNat`. -/
def assertWindow (l : List ℕ) (start_pos : ℕ) (exp_samples : ℤ) (v spp : ℕ) : List ℕ :=
  (List.range exp_samples.toNat).foldl (fun acc i => orInto acc (start_pos + i) v spp) l

/-- `exp_samples = biolum_exp if mode_index == 0 else fluo_exp`
(nidaq_controller.py lines 99–103). -/
def mode_exp_samples (mode_index : ℕ) (biolum_exp fluo_exp : ℤ) : ℤ :=
  if mode_index = 0 then biolum_exp else fluo_exp

/-- `bit_value = 0` for bioluminescence, `1 << (mode_index + 1)` for blue/green
(nidaq_controller.py lines 100–103). -/
def mode_bit_value (mode_index : ℕ) : ℕ :=
  if mode_index = 0 then 0 else 2 ^ (mode_index + 1)

/-- The body of the per-mode loop of `_generate_pattern` (lines 96–114): the
exposure window gets `bit_value | (1 << 4)`, then — for blue/green only —
`bit_value` is OR'd again over the identical range. -/
def process_mode (spp mode_spacing : ℕ) (biolum_exp fluo_exp : ℤ)
    (idx mode_index : ℕ) (l : List ℕ) : List ℕ :=
  let start_pos := idx * mode_spacing
  let e := mode_exp_samples mode_index biolum_exp fluo_exp
  let bv := mode_bit_value mode_index
  let l1 := assertWindow l start_pos e (bv ||| 2 ^ 4) spp
  if 0 < mode_index then assertWindow l1 start_pos e bv spp else l1

/-- `for idx, mode_index in enumerate(active_modes): ...` with the enumeration
index carried explicitly. -/
def process_modes (spp mode_spacing : ℕ) (biolum_exp fluo_exp : ℤ) :
    ℕ → List ℕ → List ℕ → List ℕ
  | _, [], l => l
  | idx, mi :: rest, l =>
      process_modes spp mode_spacing biolum_exp fluo_exp (idx + 1) rest
        (process_mode spp mode_spacing biolum_exp fluo_exp idx mi l)

/-- `_generate_pattern` (nidaq_controller.py lines 72–116).  A negative
`samples_per_period` makes `[0] * samples_per_period` empty in Python, which the
`ℕ`-valued `spp` parameter mirrors (the caller clamps with `Int.toNat`). -/
def generate_pattern (modes : List Bool) (spp : ℕ) (biolum_exp fluo_exp : ℤ) : List ℕ :=
  if ((modes.take 3).any (fun b => b)) = false then List.replicate spp 0
  else
    let active := active_modes modes
    let mode_spacing := spp / max active.length 1
    process_modes spp mode_spacing biolum_exp fluo_exp 0 active (List.replicate spp 0)

/-! ## nidaq_controller.py : controller state, start_task, stop_task -/

/-- A Python exception escaping `start_task` (only `1.0 / 0.0` can, since the
`except` clause catches only `nidaqmx.errors.Error`). -/
inductive PyExn where
  | zeroDivisionError
deriving DecidableEq

/-- The mutable fields of `NIDAQController` plus the last sample buffer written
to the hardware (so "all lines low" is observable).  `hasTask` is
`self.task is not None`. -/
structure DAQState where
  hasTask : Bool
  running : Bool
  current_pattern : Option (List ℕ)
  lastWritten : List ℕ
deriving DecidableEq

/-- `NIDAQController.__init__`: no task, not running, no pattern; the hardware
lines have never been driven, i.e. they are low. -/
def initState : DAQState :=
  ⟨false, false, none, [0]⟩

/-- `stop_task` (nidaq_controller.py lines 119–141): if a task exists, write
`[0]`, stop and close it; the `finally` block clears task, running flag and
pattern; returns True either way.  (The hardware-error branch returning False
cannot fire in this device-free model.) -/
def stop_task (s : DAQState) : Bool × DAQState :=
  if s.hasTask then (true, ⟨false, false, none, [0]⟩) else (true, s)

/-- `start_task` (nidaq_controller.py lines 17–70): a running task is first
stopped; `period = 1.0 / mode_frequency` raises ZeroDivisionError when the
frequency is 0 (before the `try` block, so it escapes); otherwise the pattern
is compiled, written (continuous playback) and the task marked running. -/
def start_task (s : DAQState) (f : ℚ) (modes : List Bool) (biolum_exp fluo_exp : ℤ) :
    Except PyExn Bool × DAQState :=
  let s1 := if s.running then (stop_task s).2 else s
  let n := num_active_modes modes
  if mode_frequency f n = 0 then (Except.error PyExn.zeroDivisionError, s1)
  else
    let pattern := generate_pattern modes (samples_per_period f n).toNat biolum_exp fluo_exp
    (Except.ok true, ⟨true, true, some pattern, pattern⟩)

/-! ## o2acq.py : exposure validation and frame-timeout configuration -/

/-- `period_ms = int((1.0 / frequency) * 1000)` (o2acq.py line 729). -/
def period_ms (f : ℚ) : ℤ := pyInt ((1 / f) * 1000)

/-- `max_exposure = int(period_ms * 0.9)` (o2acq.py line 730). -/
def max_exposure (f : ℚ) : ℤ := pyInt ((period_ms f : ℚ) * (9 / 10))

/-- `validate_exposure_time` (o2acq.py lines 724–745): an entered value above
`max_exposure` is replaced by `max_exposure`; smaller values pass through. -/
def validate_exposure_time (f : ℚ) (e : ℤ) : ℤ :=
  if max_exposure f < e then max_exposure f else e

/-! ## image_acquisition.py : acquisition loop, frame timeout, rate monitor -/

/-- `set_frame_timeout` (image_acquisition.py lines 53–58):
`period_ms = (1.0 / frequency) * 1000; frame_timeout = int(period_ms * 1.5)`. -/
def set_frame_timeout (f : ℚ) : ℤ :=
  pyInt (((1 / f) * 1000) * (3 / 2))

/-- One observable outcome of a loop iteration's camera interaction:
`wait_for_frame` times out, `read_newest_image` yields no payload, or a frame
payload arrives (identified by a number). -/
inductive FrameEvent where
  | timeout
  | emptyPayload
  | frame (payload : ℕ)
deriving DecidableEq

/-- The loop state relevant to mode demultiplexing: `self.image_counter` and
the `(mode, payload)` pairs emitted via `image_acquired`, in emission order. -/
structure LoopState where
  image_counter : ℕ
  emitted : List (String × ℕ)
deriving DecidableEq

/-- One iteration of `ImageAcquisitionService.run` (lines 69–104) restricted to
counting and demultiplexing: a timeout or a `None` payload `continue`s without
touching the counter; a frame is assigned
`active_modes[image_counter % len(active_modes)]`, emitted, and the counter is
incremented.  With an empty mode list the indexing raises, the blanket
`except` logs and `continue`s, and the counter is again untouched. -/
def loop_step (active : List String) (s : LoopState) (ev : FrameEvent) : LoopState :=
  match ev with
  | FrameEvent.timeout => s
  | FrameEvent.emptyPayload => s
  | FrameEvent.frame p =>
      if active.length = 0 then s
      else
        let mode := active.getD (s.image_counter % active.length) ""
        ⟨s.image_counter + 1, s.emitted ++ [(mode, p)]⟩

/-- Running the loop over a scripted sequence of camera outcomes, starting from
`run`'s reset state (`image_counter = 0`, nothing emitted). -/
def run_loop (active : List String) (evs : List FrameEvent) : LoopState :=
  evs.foldl (loop_step active) ⟨0, []⟩

/-- The per-mode interval-ring update (image_acquisition.py lines 91–95):
append the new interval, then `if len > 10: ring = ring[-10:]`. -/
def push_interval (ring : List ℚ) (x : ℚ) : List ℚ :=
  let r := ring ++ [x]
  if 10 < r.length then r.drop (r.length - 10) else r

/-- The per-mode rate of `get_statistics` (image_acquisition.py lines 148–155):
0 for an empty ring, otherwise `1 / mean` guarded by `mean > 0`. -/
def mean_rate (ring : List ℚ) : ℚ :=
  if ring = [] then 0
  else
    let avg := ring.sum / ring.length
    if 0 < avg then 1 / avg else 0

/-! ## Helper lemmas: list surgery -/

theorem getD_set (l : List ℕ) (i a s : ℕ) :
    (l.set i a).getD s 0 = if i = s ∧ s < l.length then a else l.getD s 0 := by
  simp only [List.getD_eq_getElem?_getD, List.getElem?_set]
  by_cases h1 : i = s
  · subst h1
    by_cases h2 : i < l.length
    · simp [h2]
    · simp [h2, List.getElem?_eq_none (Nat.le_of_not_lt h2)]
  · simp [h1]

theorem length_orInto (l : List ℕ) (pos v spp : ℕ) :
    (orInto l pos v spp).length = l.length := by
  unfold orInto
  split <;> simp

theorem getD_orInto (l : List ℕ) (pos v spp s : ℕ) :
    (orInto l pos v spp).getD s 0 =
      if pos = s ∧ s < spp ∧ s < l.length then l.getD s 0 ||| v else l.getD s 0 := by
  unfold orInto
  by_cases hp : pos < spp
  · simp only [if_pos hp, getD_set]
    by_cases h1 : pos = s
    · subst h1
      by_cases h2 : pos < l.length
      · simp [h2, hp]
      · simp [h2]
    · simp [h1]
  · simp only [if_neg hp]
    have : ¬(pos = s ∧ s < spp ∧ s < l.length) := by
      rintro ⟨rfl, hs, _⟩; exact hp hs
    simp [this]

theorem length_foldl_orInto (xs : List ℕ) (l : List ℕ) (start v spp : ℕ) :
    (xs.foldl (fun acc i => orInto acc (start + i) v spp) l).length = l.length := by
  induction xs generalizing l with
  | nil => rfl
  | cons x xs ih =>
      rw [List.foldl_cons, ih, length_orInto]

theorem length_assertWindow (l : List ℕ) (start : ℕ) (e : ℤ) (v spp : ℕ) :
    (assertWindow l start e v spp).length = l.length :=
  length_foldl_orInto _ l start v spp

/-- What one exposure-window loop does to sample `s`: inside the (clamped)
window the value gains the OR'd bits, elsewhere it is untouched. -/
theorem getD_foldl_range (e : ℕ) (l : List ℕ) (start v spp s : ℕ) :
    ((List.range e).foldl (fun acc i => orInto acc (start + i) v spp) l).getD s 0 =
      if start ≤ s ∧ s < start + e ∧ s < spp ∧ s < l.length
      then l.getD s 0 ||| v else l.getD s 0 := by
  induction e with
  | zero =>
      have h0 : ¬(start ≤ s ∧ s < start ∧ s < spp ∧ s < l.length) := by omega
      simp only [List.range_zero, List.foldl_nil, Nat.add_zero]
      rw [if_neg (by omega)]
  | succ e ih =>
      rw [List.range_succ, List.foldl_append, List.foldl_cons, List.foldl_nil,
        getD_orInto, length_foldl_orInto, ih]
      split_ifs <;> first | rfl | omega

theorem getD_assertWindow (l : List ℕ) (start : ℕ) (e : ℤ) (v spp s : ℕ) :
    (assertWindow l start e v spp).getD s 0 =
      if start ≤ s ∧ s < start + e.toNat ∧ s < spp ∧ s < l.length
      then l.getD s 0 ||| v else l.getD s 0 :=
  getD_foldl_range e.toNat l start v spp s

theorem length_process_mode (spp sp : ℕ) (be fe : ℤ) (idx mi : ℕ) (l : List ℕ) :
    (process_mode spp sp be fe idx mi l).length = l.length := by
  unfold process_mode
  split <;> simp only [length_assertWindow]

theorem length_process_modes (spp sp : ℕ) (be fe : ℤ) :
    ∀ (act : List ℕ) (idx : ℕ) (l : List ℕ),
      (process_modes spp sp be fe idx act l).length = l.length := by
  intro act
  induction act with
  | nil => intro idx l; rfl
  | cons mi rest ih =>
      intro idx l
      rw [process_modes, ih, length_process_mode]

theorem length_generate_pattern (modes : List Bool) (spp : ℕ) (be fe : ℤ) :
    (generate_pattern modes spp be fe).length = spp := by
  unfold generate_pattern
  split
  · simp
  · rw [length_process_modes]; simp

/-- A sample touched by `process_mode` either was already nonzero or lies in
the half-open exposure window of this mode (and inside the pattern). -/
theorem process_mode_ne_zero (spp sp : ℕ) (be fe : ℤ) (idx mi : ℕ) (l : List ℕ) (s : ℕ)
    (h : (process_mode spp sp be fe idx mi l).getD s 0 ≠ 0) :
    l.getD s 0 ≠ 0 ∨
      (idx * sp ≤ s ∧ s < idx * sp + (mode_exp_samples mi be fe).toNat ∧ s < spp) := by
  unfold process_mode at h
  by_cases hw : idx * sp ≤ s ∧ s < idx * sp + (mode_exp_samples mi be fe).toNat ∧
      s < spp ∧ s < l.length
  · exact Or.inr ⟨hw.1, hw.2.1, hw.2.2.1⟩
  · left
    intro h0
    apply h
    split
    · rw [getD_assertWindow, length_assertWindow]
      rw [if_neg hw, getD_assertWindow, if_neg hw, h0]
    · rw [getD_assertWindow, if_neg hw, h0]

theorem process_modes_ne_zero (spp sp : ℕ) (be fe : ℤ) :
    ∀ (act : List ℕ) (idx : ℕ) (l : List ℕ) (s : ℕ),
      (process_modes spp sp be fe idx act l).getD s 0 ≠ 0 →
      l.getD s 0 ≠ 0 ∨
        ∃ j, j < act.length ∧ (idx + j) * sp ≤ s ∧
          s < (idx + j) * sp + (max be fe).toNat ∧ s < spp := by
  intro act
  induction act with
  | nil => intro idx l s h; exact Or.inl h
  | cons mi rest ih =>
      intro idx l s h
      rw [process_modes] at h
      rcases ih (idx + 1) _ s h with h1 | ⟨j, hj, h2, h3, h4⟩
      · rcases process_mode_ne_zero spp sp be fe idx mi l s h1 with h5 | ⟨h5, h6, h7⟩
        · exact Or.inl h5
        · refine Or.inr ⟨0, by simp, ?_, ?_, h7⟩
          · simpa using h5
          · have hle : (mode_exp_samples mi be fe).toNat ≤ (max be fe).toNat := by
              apply Int.toNat_le_toNat
              unfold mode_exp_samples
              split
              · exact le_max_left _ _
              · exact le_max_right _ _
            simp only [Nat.add_zero]
            omega
      · have hidx : idx + (j + 1) = (idx + 1) + j := by omega
        refine Or.inr ⟨j + 1, by simpa using hj, ?_, ?_, h4⟩
        · rw [hidx]; exact h2
        · rw [hidx]; exact h3

/-! ## Helper lemmas: arithmetic of the compiled timing -/

theorem pyInt_of_nonneg {q : ℚ} (h : 0 ≤ q) : pyInt q = ⌊q⌋ := by
  unfold pyInt
  rw [if_neg (not_lt.mpr h)]

theorem period_ms_eq_floor (f : ℚ) (hf : 0 < f) : period_ms f = ⌊(1000 : ℚ) / f⌋ := by
  unfold period_ms
  rw [pyInt_of_nonneg (by positivity)]
  congr 1
  ring

theorem period_ms_nonneg (f : ℚ) (hf : 0 < f) : 0 ≤ period_ms f := by
  rw [period_ms_eq_floor f hf]
  exact Int.floor_nonneg.mpr (by positivity)

theorem samples_per_period_eq_floor (f : ℚ) (hf : 0 < f) (n : ℕ) :
    samples_per_period f n = ⌊(1000 * (max n 1 : ℕ) : ℚ) / f⌋ := by
  unfold samples_per_period mode_frequency
  by_cases hn : n ≤ 1
  · rw [if_pos hn, pyInt_of_nonneg (by positivity)]
    congr 1
    have hm : max n 1 = 1 := by omega
    rw [hm]
    norm_num
    rw [div_eq_mul_inv]
  · have hn0 : (0 : ℚ) < (n : ℚ) := by exact_mod_cast (by omega : 0 < n)
    rw [if_neg hn, pyInt_of_nonneg (by positivity)]
    congr 1
    have hm : max n 1 = n := by omega
    rw [hm, one_div_div]
    ring

theorem max_exposure_le_period_ms (f : ℚ) (hf : 0 < f) :
    max_exposure f ≤ period_ms f := by
  unfold max_exposure
  have hp : (0 : ℚ) ≤ (period_ms f : ℚ) * (9 / 10) := by
    have := period_ms_nonneg f hf
    positivity
  rw [pyInt_of_nonneg hp]
  have hq : (0 : ℚ) ≤ (period_ms f : ℚ) := by exact_mod_cast period_ms_nonneg f hf
  calc ⌊(period_ms f : ℚ) * (9 / 10)⌋ ≤ ⌊(period_ms f : ℚ)⌋ := by
        apply Int.floor_le_floor
        nlinarith [hq]
    _ = period_ms f := Int.floor_intCast _

theorem max_exposure_nonneg (f : ℚ) (hf : 0 < f) : 0 ≤ max_exposure f := by
  unfold max_exposure
  have hp : (0 : ℚ) ≤ (period_ms f : ℚ) * (9 / 10) := by
    have := period_ms_nonneg f hf
    positivity
  rw [pyInt_of_nonneg hp]
  exact Int.floor_nonneg.mpr hp

/-- `max_exposure` never exceeds 90 % of the per-mode slot duration in ms. -/
theorem max_exposure_le_ninety_percent (f : ℚ) (hf : 0 < f) :
    (max_exposure f : ℚ) ≤ 9 / 10 * (1000 / f) := by
  unfold max_exposure
  have hp : (0 : ℚ) ≤ (period_ms f : ℚ) * (9 / 10) := by
    have := period_ms_nonneg f hf
    positivity
  rw [pyInt_of_nonneg hp]
  have h1 : ((⌊(period_ms f : ℚ) * (9 / 10)⌋ : ℤ) : ℚ) ≤ (period_ms f : ℚ) * (9 / 10) :=
    Int.floor_le _
  have h2 : (period_ms f : ℚ) ≤ 1000 / f := by
    rw [period_ms_eq_floor f hf]
    exact Int.floor_le _
  nlinarith

/-- The slot width `samples_per_period // max(n, 1)` is at least `period_ms`,
so a clamped exposure always fits inside its slot. -/
theorem period_ms_le_mode_spacing (f : ℚ) (hf : 0 < f) (n : ℕ) :
    (period_ms f).toNat ≤ (samples_per_period f n).toNat / max n 1 := by
  set m := max n 1 with hm
  have hm0 : 0 < m := by omega
  have hmq : (0 : ℚ) < (m : ℚ) := by exact_mod_cast hm0
  have ha : (0 : ℤ) ≤ period_ms f := period_ms_nonneg f hf
  have hkey : (m : ℤ) * period_ms f ≤ samples_per_period f n := by
    rw [samples_per_period_eq_floor f hf n, ← hm]
    rw [Int.le_floor]
    have h1 : (period_ms f : ℚ) ≤ 1000 / f := by
      rw [period_ms_eq_floor f hf]
      exact Int.floor_le _
    have h2 : ((m : ℤ) : ℚ) * (period_ms f : ℚ) ≤ (m : ℚ) * (1000 / f) := by
      apply mul_le_mul_of_nonneg_left h1
      positivity
    calc ((↑m * period_ms f : ℤ) : ℚ) = ((m : ℤ) : ℚ) * (period_ms f : ℚ) := by push_cast; ring
      _ ≤ (m : ℚ) * (1000 / f) := h2
      _ = 1000 * (m : ℚ) / f := by ring
  have hspp : (0 : ℤ) ≤ samples_per_period f n :=
    le_trans (mul_nonneg (by positivity) ha) hkey
  rw [Nat.le_div_iff_mul_le hm0]
  zify
  rw [Int.toNat_of_nonneg ha, Int.toNat_of_nonneg hspp]
  linarith [hkey]

/-! ## Helper lemmas: active mode bookkeeping -/

theorem length_active_modes_from : ∀ (i : ℕ) (l : List Bool),
    (active_modes_from i l).length = (l.filter (fun b => b)).length := by
  intro i l
  induction l generalizing i with
  | nil => rfl
  | cons b rest ih =>
      cases b <;> simp [active_modes_from, ih]

theorem length_active_modes (modes : List Bool) :
    (active_modes modes).length = num_active_modes modes :=
  length_active_modes_from 0 _

theorem num_active_pos_of_any (modes : List Bool)
    (h : (modes.take 3).any (fun b => b) = true) : 0 < num_active_modes modes := by
  unfold num_active_modes
  rcases List.any_eq_true.mp h with ⟨b, hb, hbt⟩
  have hmem : b ∈ (modes.take 3).filter (fun b => b) := List.mem_filter.mpr ⟨hb, hbt⟩
  exact List.length_pos.mpr (fun he => by simp [he] at hmem)

theorem getD_replicate_zero (n s : ℕ) : (List.replicate n (0 : ℕ)).getD s 0 = 0 := by
  rw [List.getD_eq_getElem?_getD, List.getElem?_replicate]
  split <;> rfl

/-! ## Helper lemmas: acquisition loop -/

theorem getD_append_lt {α : Type} [Inhabited α] (l l2 : List α) (k : ℕ) (d : α)
    (h : k < l.length) : (l ++ l2).getD k d = l.getD k d := by
  rw [List.getD_eq_getElem?_getD, List.getD_eq_getElem?_getD, List.getElem?_append, if_pos h]

theorem getD_append_self {α : Type} [Inhabited α] (l l2 : List α) (d : α) :
    (l ++ l2).getD l.length d = l2.getD 0 d := by
  rw [List.getD_eq_getElem?_getD, List.getD_eq_getElem?_getD,
    List.getElem?_append_right (le_refl _), Nat.sub_self]

/-- Invariant of the acquisition loop: the counter counts the emitted frames
and every emitted frame carries the mode selected by its position in the
cycle. -/
theorem run_loop_invariant (active : List String) :
    ∀ (evs : List FrameEvent) (s : LoopState),
      s.image_counter = s.emitted.length →
      (∀ k, k < s.emitted.length →
        (s.emitted.getD k ("", 0)).1 = active.getD (k % active.length) "") →
      (evs.foldl (loop_step active) s).image_counter
          = (evs.foldl (loop_step active) s).emitted.length ∧
      ∀ k, k < (evs.foldl (loop_step active) s).emitted.length →
        ((evs.foldl (loop_step active) s).emitted.getD k ("", 0)).1
          = active.getD (k % active.length) "" := by
  intro evs
  induction evs with
  | nil => intro s h1 h2; exact ⟨h1, h2⟩
  | cons ev rest ih =>
      intro s h1 h2
      rw [List.foldl_cons]
      cases ev with
      | timeout => exact ih s h1 h2
      | emptyPayload => exact ih s h1 h2
      | frame p =>
          by_cases hz : active.length = 0
          · simp only [loop_step, if_pos hz]
            exact ih s h1 h2
          · simp only [loop_step, if_neg hz]
            apply ih
            · simp [h1]
            · intro k hk
              simp only [List.length_append, List.length_cons, List.length_nil] at hk
              by_cases hlt : k < s.emitted.length
              · rw [getD_append_lt _ _ _ _ hlt]
                exact h2 k hlt
              · have hke : k = s.emitted.length := by omega
                subst hke
                rw [getD_append_self]
                simp [h1]

/-! ## Helper lemmas: start/stop state machine -/

theorem mode_frequency_ne_zero {f : ℚ} (hf : f ≠ 0) (n : ℕ) : mode_frequency f n ≠ 0 := by
  unfold mode_frequency
  by_cases hn : n ≤ 1
  · rw [if_pos hn]; exact hf
  · rw [if_neg hn]
    have hn0 : (n : ℚ) ≠ 0 := by
      exact_mod_cast (by omega : n ≠ 0)
    exact div_ne_zero hf hn0

theorem mode_frequency_zero (n : ℕ) : mode_frequency 0 n = 0 := by
  unfold mode_frequency
  split <;> simp

theorem validate_le_max (f : ℚ) (x : ℤ) :
    validate_exposure_time f x ≤ max_exposure f := by
  unfold validate_exposure_time
  split
  · exact le_refl _
  · next h => exact le_of_not_lt h

/-- Evaluation of `start_task` on any nonzero mode frequency. -/
theorem start_task_result (s : DAQState) (f : ℚ) (modes : List Bool) (be fe : ℤ)
    (hmf : mode_frequency f (num_active_modes modes) ≠ 0) :
    start_task s f modes be fe =
      (Except.ok true,
       ⟨true, true,
        some (generate_pattern modes
          (samples_per_period f (num_active_modes modes)).toNat be fe),
        generate_pattern modes
          (samples_per_period f (num_active_modes modes)).toNat be fe⟩) := by
  simp [start_task, hmf]

/-- Invariant of every reachable controller state: with no task object there
is no running playback, no retained pattern, and the lines are low. -/
def GoodState (s : DAQState) : Prop :=
  s.hasTask = false → (s.running = false ∧ s.current_pattern = none ∧ s.lastWritten = [0])

theorem goodState_init : GoodState initState :=
  fun _ => ⟨rfl, rfl, rfl⟩

theorem goodState_stop (s : DAQState) (hs : GoodState s) : GoodState (stop_task s).2 := by
  unfold stop_task
  by_cases h : s.hasTask = true
  · simp only [h, if_true]
    exact fun _ => ⟨rfl, rfl, rfl⟩
  · simp only [h, if_false]
    exact hs

theorem goodState_start (s : DAQState) (hs : GoodState s) (f : ℚ) (modes : List Bool)
    (be fe : ℤ) : GoodState (start_task s f modes be fe).2 := by
  unfold start_task
  by_cases hmf : mode_frequency f (num_active_modes modes) = 0
  · simp only [hmf, if_true]
    by_cases hr : s.running = true
    · simp only [hr, if_true]
      exact goodState_stop s hs
    · simp only [hr, if_false]
      exact hs
  · simp only [hmf, if_false]
    intro h
    exact absurd h (by simp)

/-! ## Claim theorems -/

/-- C1 (code-bug evaluation): the compiled waveform drives the Blue
illumination on bit 2 and the Green illumination on bit 3 — the effect of
`bit_value = 1 << (mode_index + 1)` — not on bits 1 and 2 as the bit layout
states and as the source's own comment ("Line 1 for blue, line 2 for green")
documents.  Concretely, in a Blue-only waveform of 10 samples with a 3 ms
fluorescence exposure, sample 0 is 20 (bits 2 and 4), with bit 1 clear; in the
Green-only waveform sample 0 is 24 (bits 3 and 4), with bits 1 and 2 clear,
so the supposedly reserved bit 3 is driven. -/
theorem illumination_bits_blue_green_eval :
    (generate_pattern [false, true, false] 10 50 3).getD 0 0 = 20 ∧
    Nat.testBit 20 2 = true ∧ Nat.testBit 20 1 = false ∧
    (generate_pattern [false, false, true] 10 50 3).getD 0 0 = 24 ∧
    Nat.testBit 24 3 = true ∧ Nat.testBit 24 2 = false ∧ Nat.testBit 24 1 = false := by
  decide

/-- C3 (counterexample): the code truncates instead of rounding — at
cycle frequency 3 Hz with 2 active modes it compiles 666 samples while
round(1000 × 2 / 3) = 667 — and the length is not bounded below by 1: at
2000 Hz with one active mode it compiles 0 samples. -/
theorem samples_per_period_not_round :
    samples_per_period 3 2 = 666 ∧ round ((1000 * 2 : ℚ) / 3) = 667 ∧
    samples_per_period 2000 1 = 0 := by
  refine ⟨?_, ?_, ?_⟩
  · norm_num [samples_per_period, mode_frequency, pyInt]
  · rw [round_eq]
    norm_num
  · norm_num [samples_per_period, mode_frequency, pyInt]

/-- C3 (amended): for every positive cycle frequency f and mode count n the
compiled length is the Python-int truncation ⌊1000·n/f⌋ when n > 1 and
⌊1000/f⌋ when n ≤ 1 (uniformly ⌊1000·max(n,1)/f⌋); it is at least 1 exactly
when f ≤ 1000·max(n,1) — so it can be 0 — and the waveform armed by
start_task has exactly this length. -/
theorem samples_per_period_truncates (f : ℚ) (hf : 0 < f) (n : ℕ) :
    samples_per_period f n = ⌊(1000 * (max n 1 : ℕ) : ℚ) / f⌋ ∧
    (1 ≤ samples_per_period f n ↔ f ≤ (1000 * (max n 1 : ℕ) : ℚ)) ∧
    ∀ (s : DAQState) (modes : List Bool) (be fe : ℤ),
      num_active_modes modes = n →
      ∃ w, (start_task s f modes be fe).2.current_pattern = some w ∧
        w.length = (samples_per_period f n).toNat := by
  refine ⟨samples_per_period_eq_floor f hf n, ?_, ?_⟩
  · rw [samples_per_period_eq_floor f hf n, Int.le_floor]
    push_cast
    rw [le_div_iff₀ hf, one_mul]
  · intro s modes be fe hn
    subst hn
    have hmf := mode_frequency_ne_zero (ne_of_gt hf) (num_active_modes modes)
    rw [start_task_result s f modes be fe hmf]
    exact ⟨_, rfl, length_generate_pattern _ _ _ _⟩

/-- C5 (counterexample): with a waveform already live (running controller,
pattern [7] armed), start_task does not fail busy — it returns success and
arms the device with the NEW waveform, replacing [7]. -/
theorem start_task_busy_restarts :
    (start_task ⟨true, true, some [7], [7]⟩ 100 [true, false, false, true] 5 5).1
        = Except.ok true ∧
    (start_task ⟨true, true, some [7], [7]⟩ 100 [true, false, false, true] 5 5).2.current_pattern
        = some [16, 16, 16, 16, 16, 0, 0, 0, 0, 0] ∧
    some [16, 16, 16, 16, 16, 0, 0, 0, 0, 0] ≠ some [(7 : ℕ)] := by
  have hn : num_active_modes [true, false, false, true] = 1 := by decide
  have hmf : mode_frequency 100 (num_active_modes [true, false, false, true]) ≠ 0 := by
    rw [hn]; norm_num [mode_frequency]
  have hspp : samples_per_period 100 (num_active_modes [true, false, false, true]) = 10 := by
    rw [hn]; norm_num [samples_per_period, mode_frequency, pyInt]
  rw [start_task_result _ _ _ _ _ hmf, hspp]
  refine ⟨rfl, ?_, by decide⟩
  show some (generate_pattern [true, false, false, true] (Int.toNat 10) 5 5) = _
  decide

/-- C5 (amended): if a waveform is already live, start_task first stops the
previous task itself (the caller need not call stop()) and then arms the new
waveform, reporting success; afterwards exactly the new waveform is live, so
at most one waveform is live at a time. -/
theorem start_task_while_running_arms_new (s : DAQState) (hs : s.running = true)
    (f : ℚ) (hf : f ≠ 0) (modes : List Bool) (be fe : ℤ) :
    (start_task s f modes be fe).1 = Except.ok true ∧
    (start_task s f modes be fe).2 =
      ⟨true, true,
        some (generate_pattern modes
          (samples_per_period f (num_active_modes modes)).toNat be fe),
        generate_pattern modes
          (samples_per_period f (num_active_modes modes)).toNat be fe⟩ := by
  have hmf := mode_frequency_ne_zero hf (num_active_modes modes)
  constructor <;> simp [start_task, hmf]

/-- C6 (counterexample): the supposedly rejected configurations all start
successfully: an empty mode set and negative exposures each arm an all-zero
waveform, and a negative frequency arms an empty one — no InvalidConfig
failure occurs on any of them. -/
theorem start_task_accepts_invalid_config :
    (start_task initState 100 [false, false, false, true] 5 5).1 = Except.ok true ∧
    (start_task initState 100 [false, false, false, true] 5 5).2.current_pattern
        = some (List.replicate 10 0) ∧
    (start_task initState 100 [true, false, false, true] (-5) (-5)).1 = Except.ok true ∧
    (start_task initState 100 [true, false, false, true] (-5) (-5)).2.current_pattern
        = some (List.replicate 10 0) ∧
    (start_task initState (-100) [true, false, false, true] 5 5).1 = Except.ok true := by
  have hn0 : num_active_modes [false, false, false, true] = 0 := by decide
  have hn1 : num_active_modes [true, false, false, true] = 1 := by decide
  have hmf0 : mode_frequency 100 (num_active_modes [false, false, false, true]) ≠ 0 := by
    rw [hn0]; norm_num [mode_frequency]
  have hmf1 : mode_frequency 100 (num_active_modes [true, false, false, true]) ≠ 0 := by
    rw [hn1]; norm_num [mode_frequency]
  have hmf2 : mode_frequency (-100) (num_active_modes [true, false, false, true]) ≠ 0 := by
    rw [hn1]; norm_num [mode_frequency]
  have hspp0 : samples_per_period 100 (num_active_modes [false, false, false, true]) = 10 := by
    rw [hn0]; norm_num [samples_per_period, mode_frequency, pyInt]
  have hspp1 : samples_per_period 100 (num_active_modes [true, false, false, true]) = 10 := by
    rw [hn1]; norm_num [samples_per_period, mode_frequency, pyInt]
  rw [start_task_result _ _ _ _ _ hmf0, start_task_result _ _ _ _ _ hmf1,
    start_task_result _ _ _ _ _ hmf2, hspp0, hspp1]
  refine ⟨rfl, ?_, rfl, ?_, rfl⟩
  · show some (generate_pattern [false, false, false, true] (Int.toNat 10) 5 5) = _
    decide
  · show some (generate_pattern [true, false, false, true] (Int.toNat 10) (-5) (-5)) = _
    decide

/-- C6 (amended): start_task performs no configuration validation at all: for
every state and every configuration it reports success — empty mode sets,
negative exposures and negative frequencies included — except when the
frequency is exactly 0, where the period computation raises an uncaught
ZeroDivisionError; no InvalidConfig error path exists. -/
theorem start_task_no_invalid_config_error (s : DAQState) (f : ℚ)
    (modes : List Bool) (be fe : ℤ) :
    (start_task s f modes be fe).1 =
      if f = 0 then Except.error PyExn.zeroDivisionError else Except.ok true := by
  by_cases hf : f = 0
  · subst hf
    have hmf := mode_frequency_zero (num_active_modes modes)
    simp [start_task, hmf]
  · have hmf := mode_frequency_ne_zero hf (num_active_modes modes)
    simp [start_task, hmf, hf]

/-- C7 (counterexample): at 1 Hz with 3 active modes the per-mode frequency is
1/3 Hz, so 1.5 × the per-mode period is 4500 ms; the loop's timeout is
computed as int(1.5 × 1000/1) = 1500 ms, ignoring the mode count. -/
theorem frame_timeout_ignores_mode_count :
    set_frame_timeout 1 = 1500 ∧
    pyInt ((3 / 2) * (1000 * 3 / 1)) = 4500 ∧ (1500 : ℤ) ≠ 4500 := by
  refine ⟨?_, ?_, by decide⟩
  · norm_num [set_frame_timeout, pyInt]
  · norm_num [pyInt]

/-- C7 (amended): for every positive configured cycle frequency f the
acquisition loop's frame timeout is int(1.5 × 1000/f) = ⌊1500/f⌋ ms, computed
from the configured frequency alone; the number of active modes plays no
role. -/
theorem set_frame_timeout_formula (f : ℚ) (hf : 0 < f) :
    set_frame_timeout f = ⌊(1500 : ℚ) / f⌋ := by
  unfold set_frame_timeout
  rw [pyInt_of_nonneg (by positivity)]
  congr 1
  ring

/-- C2: in every run of the acquisition loop, a wait timeout and an
unavailable payload leave the loop state (counter included) unchanged; with a
non-empty mode list, the k-th processed frame is assigned
`modeSet[k mod |modeSet|]` in the configured order; and a scripted arrival
sequence of 10 frames (with interspersed timeouts and empty payloads) against
the 3-mode set yields the cyclic assignment [0,1,2,0,1,2,0,1,2,0]. -/
theorem mode_assignment_cyclic :
    (∀ (active : List String) (s : LoopState),
        loop_step active s FrameEvent.timeout = s ∧
        loop_step active s FrameEvent.emptyPayload = s) ∧
    (∀ (active : List String) (evs : List FrameEvent),
        (run_loop active evs).image_counter = (run_loop active evs).emitted.length) ∧
    (∀ (active : List String), active ≠ [] →
      ∀ (evs : List FrameEvent) (k : ℕ),
        k < (run_loop active evs).emitted.length →
        ((run_loop active evs).emitted.getD k ("", 0)).1
          = active.getD (k % active.length) "") ∧
    (run_loop ["Bioluminescence", "Blue", "Green"]
        [FrameEvent.frame 0, FrameEvent.timeout, FrameEvent.frame 1, FrameEvent.frame 2,
         FrameEvent.emptyPayload, FrameEvent.frame 3, FrameEvent.frame 4, FrameEvent.frame 5,
         FrameEvent.timeout, FrameEvent.frame 6, FrameEvent.frame 7, FrameEvent.frame 8,
         FrameEvent.emptyPayload, FrameEvent.frame 9]).emitted.map Prod.fst
      = ["Bioluminescence", "Blue", "Green", "Bioluminescence", "Blue", "Green",
         "Bioluminescence", "Blue", "Green", "Bioluminescence"] := by
  have hinv : ∀ (active : List String) (evs : List FrameEvent),
      (evs.foldl (loop_step active) ⟨0, []⟩).image_counter
          = (evs.foldl (loop_step active) ⟨0, []⟩).emitted.length ∧
      ∀ k, k < (evs.foldl (loop_step active) ⟨0, []⟩).emitted.length →
        ((evs.foldl (loop_step active) ⟨0, []⟩).emitted.getD k ("", 0)).1
          = active.getD (k % active.length) "" := by
    intro active evs
    refine run_loop_invariant active evs ⟨0, []⟩ rfl ?_
    intro j hj
    simp at hj
  refine ⟨fun active s => ⟨rfl, rfl⟩, fun active evs => (hinv active evs).1, ?_, by rfl⟩
  intro active hne evs k hk
  exact (hinv active evs).2 k hk

/-- C2 witness: the general cyclic-assignment conjunct applied to a concrete
two-mode run. -/
theorem mode_assignment_cyclic_witness :
    (["A", "B"] : List String) ≠ [] ∧
    ((run_loop ["A", "B"] [FrameEvent.frame 5, FrameEvent.frame 6]).emitted.getD 1 ("", 0)).1
      = (["A", "B"] : List String).getD (1 % 2) "" := by
  refine ⟨by simp, ?_⟩
  exact mode_assignment_cyclic.2.2.1 ["A", "B"] (by simp)
    [FrameEvent.frame 5, FrameEvent.frame 6] 1 (by decide)

/-- C8: stop_task is idempotent and always safe on every reachable controller
state: the first call and a second call in a row both report success, the
second call changes nothing, and after stopping the lines are low, the task is
disarmed and the waveform released — also when nothing was live. -/
theorem stop_task_idempotent (s : DAQState) (hs : GoodState s) :
    (stop_task s).1 = true ∧
    (stop_task (stop_task s).2).1 = true ∧
    (stop_task (stop_task s).2).2 = (stop_task s).2 ∧
    (stop_task s).2.lastWritten = [0] ∧
    (stop_task s).2.hasTask = false ∧
    (stop_task s).2.running = false ∧
    (stop_task s).2.current_pattern = none := by
  unfold stop_task
  by_cases h : s.hasTask = true
  · simp [h]
  · have h' : s.hasTask = false := by
      cases hb : s.hasTask
      · rfl
      · exact absurd hb h
    obtain ⟨h1, h2, h3⟩ := hs h'
    simp [h', h1, h2, h3]

/-- C8 witness: the idempotence theorem applied to the initial (nothing live)
controller state. -/
theorem stop_task_idempotent_witness :
    (stop_task initState).1 = true ∧
    (stop_task (stop_task initState).2).2 = (stop_task initState).2 ∧
    (stop_task initState).2.lastWritten = [0] := by
  obtain ⟨a, b, c, d, _⟩ := stop_task_idempotent initState goodState_init
  exact ⟨a, c, d⟩

/-- C9: the per-mode interval ring is bounded by 10 entries with the oldest
evicted on overflow; the mean rate is 0 on an empty ring and 1/mean(intervals)
on a non-empty ring of (nonnegative) intervals; and feeding 15 synthetic 0.1 s
intervals leaves a ring of length 10 whose mean rate is 10 (the mean of the
last 10 entries). -/
theorem interval_ring_mean_rate :
    (∀ (ring : List ℚ) (x : ℚ), (push_interval ring x).length ≤ 10) ∧
    (∀ (ring : List ℚ) (x : ℚ), ring.length = 10 →
        push_interval ring x = ring.tail ++ [x]) ∧
    mean_rate [] = 0 ∧
    (∀ ring : List ℚ, ring ≠ [] → (∀ y ∈ ring, 0 ≤ y) →
        mean_rate ring = 1 / (ring.sum / ring.length)) ∧
    ((List.replicate 15 ((1 : ℚ) / 10)).foldl push_interval []).length = 10 ∧
    mean_rate ((List.replicate 15 ((1 : ℚ) / 10)).foldl push_interval []) = 10 := by
  have hfold : (List.replicate 15 ((1 : ℚ) / 10)).foldl push_interval []
      = List.replicate 10 ((1 : ℚ) / 10) := by
    norm_num [List.replicate_succ, push_interval, List.drop_succ_cons]
  refine ⟨?_, ?_, rfl, ?_, ?_, ?_⟩
  · intro ring x
    simp only [push_interval]
    split
    · simp only [List.length_drop]
      omega
    · next h => simp only [List.length_append, List.length_cons, List.length_nil] at h ⊢; omega
  · intro ring x h
    simp only [push_interval]
    rw [if_pos (by simp [h])]
    simp only [List.length_append, List.length_cons, List.length_nil, h]
    rw [show 10 + (0 + 1) - 10 = 1 by rfl]
    rw [List.drop_append_of_le_length (by omega), ← List.tail_drop, List.drop_zero]
  · intro ring hne hnn
    unfold mean_rate
    rw [if_neg hne]
    by_cases hpos : 0 < ring.sum / (ring.length : ℚ)
    · rw [if_pos hpos]
    · rw [if_neg hpos]
      have hs : 0 ≤ ring.sum := List.sum_nonneg hnn
      have hl : (0 : ℚ) < (ring.length : ℚ) := by
        have : 0 < ring.length := List.length_pos.mpr hne
        exact_mod_cast this
      have h0 : ring.sum / (ring.length : ℚ) = 0 := le_antisymm (not_lt.mp hpos) (by positivity)
      rw [h0]
      norm_num
  · rw [hfold]
    simp
  · rw [hfold]
    norm_num [mean_rate, List.sum_replicate]

/-- C9 witness: the mean-rate conjunct applied to the singleton ring [0.1]. -/
theorem interval_ring_mean_rate_witness :
    ([(1 : ℚ) / 10] : List ℚ) ≠ [] ∧
    mean_rate [(1 : ℚ) / 10] = 1 / (([(1 : ℚ) / 10] : List ℚ).sum / ([(1 : ℚ) / 10] : List ℚ).length) := by
  refine ⟨by simp, ?_⟩
  exact interval_ring_mean_rate.2.2.2.1 [(1 : ℚ) / 10] (by simp) (by norm_num)

/-- C10: with all mode flags false, pattern generation does not fail — it
returns the all-zero waveform of length samples_per_period — and start_task
arms the device with that silent pattern and reports success. -/
theorem no_modes_silent_pattern (s : DAQState) (f : ℚ) (hf : f ≠ 0)
    (modes : List Bool) (hm : (modes.take 3).any (fun b => b) = false)
    (be fe : ℤ) :
    generate_pattern modes (samples_per_period f (num_active_modes modes)).toNat be fe
        = List.replicate (samples_per_period f (num_active_modes modes)).toNat 0 ∧
    (start_task s f modes be fe).1 = Except.ok true ∧
    (start_task s f modes be fe).2.current_pattern
        = some (List.replicate (samples_per_period f (num_active_modes modes)).toNat 0) ∧
    (start_task s f modes be fe).2.running = true := by
  have hp : generate_pattern modes (samples_per_period f (num_active_modes modes)).toNat be fe
      = List.replicate (samples_per_period f (num_active_modes modes)).toNat 0 := by
    unfold generate_pattern
    rw [if_pos hm]
  have hmf := mode_frequency_ne_zero hf (num_active_modes modes)
  rw [start_task_result s f modes be fe hmf]
  exact ⟨hp, rfl, by rw [hp], rfl⟩

/-- C10 witness: a 100 Hz configuration with no active mode arms a silent
10-sample waveform. -/
theorem no_modes_silent_pattern_witness :
    (100 : ℚ) ≠ 0 ∧
    (([false, false, false, true] : List Bool).take 3).any (fun b => b) = false ∧
    (start_task initState 100 [false, false, false, true] 1 1).1 = Except.ok true := by
  refine ⟨by norm_num, by decide, ?_⟩
  exact (no_modes_silent_pattern initState 100 (by norm_num) [false, false, false, true]
    (by decide) 1 1).2.1

/-- C4: the UI clamp bounds every effective exposure by 90 % of the per-mode
period (1000/f ms, the slot duration implied by the cycle frequency and the
mode count: the full period 1000·n/f ms divided into n slots), and a waveform
compiled from clamped exposures asserts samples only inside the slot of some
active mode — never past the slot boundary and never past
samples_per_period. -/
theorem exposure_clamp_no_spill (f : ℚ) (hf : 0 < f) (modes : List Bool) (b e : ℤ) :
    ((validate_exposure_time f b : ℚ) ≤ 9 / 10 * (1000 / f) ∧
     (validate_exposure_time f e : ℚ) ≤ 9 / 10 * (1000 / f)) ∧
    ∀ s : ℕ,
      (generate_pattern modes (samples_per_period f (num_active_modes modes)).toNat
          (validate_exposure_time f b) (validate_exposure_time f e)).getD s 0 ≠ 0 →
      ∃ i, i < num_active_modes modes ∧
        i * ((samples_per_period f (num_active_modes modes)).toNat
              / max (num_active_modes modes) 1) ≤ s ∧
        s < (i + 1) * ((samples_per_period f (num_active_modes modes)).toNat
              / max (num_active_modes modes) 1) ∧
        s < (samples_per_period f (num_active_modes modes)).toNat := by
  have hclamp : ∀ x : ℤ, (validate_exposure_time f x : ℚ) ≤ 9 / 10 * (1000 / f) := by
    intro x
    have h1 : (validate_exposure_time f x : ℚ) ≤ (max_exposure f : ℚ) := by
      exact_mod_cast validate_le_max f x
    exact le_trans h1 (max_exposure_le_ninety_percent f hf)
  refine ⟨⟨hclamp b, hclamp e⟩, ?_⟩
  intro s hnz
  have hbound : (max (validate_exposure_time f b) (validate_exposure_time f e)).toNat
      ≤ (samples_per_period f (num_active_modes modes)).toNat
          / max (num_active_modes modes) 1 := by
    have h1 : max (validate_exposure_time f b) (validate_exposure_time f e) ≤ max_exposure f :=
      max_le (validate_le_max f b) (validate_le_max f e)
    have h2 := Int.toNat_le_toNat h1
    have h3 := Int.toNat_le_toNat (max_exposure_le_period_ms f hf)
    have h4 := period_ms_le_mode_spacing f hf (num_active_modes modes)
    omega
  by_cases hany : ((modes.take 3).any (fun b => b)) = false
  · exfalso
    apply hnz
    unfold generate_pattern
    rw [if_pos hany, getD_replicate_zero]
  · simp only [generate_pattern] at hnz
    rw [if_neg hany, length_active_modes] at hnz
    rcases process_modes_ne_zero _ _ _ _ (active_modes modes) 0 _ s hnz with h | ⟨j, hj, h2, h3, h4⟩
    · exact absurd (getD_replicate_zero _ s) h
    · rw [length_active_modes] at hj
      refine ⟨j, hj, ?_, ?_, h4⟩
      · simpa using h2
      · have := hbound
        simp only [Nat.zero_add] at h3
        calc s < j * ((samples_per_period f (num_active_modes modes)).toNat
                  / max (num_active_modes modes) 1)
                + (max (validate_exposure_time f b) (validate_exposure_time f e)).toNat := h3
          _ ≤ j * ((samples_per_period f (num_active_modes modes)).toNat
                  / max (num_active_modes modes) 1)
                + ((samples_per_period f (num_active_modes modes)).toNat
                  / max (num_active_modes modes) 1) := by omega
          _ = (j + 1) * ((samples_per_period f (num_active_modes modes)).toNat
                  / max (num_active_modes modes) 1) := by ring

/-- C4 witness: at 2 Hz the requested 700 ms bioluminescence exposure is
clamped below 90 % of the 500 ms per-mode period. -/
theorem exposure_clamp_no_spill_witness :
    (0 : ℚ) < 2 ∧
    (validate_exposure_time 2 700 : ℚ) ≤ 9 / 10 * (1000 / 2) := by
  refine ⟨by norm_num, ?_⟩
  exact (exposure_clamp_no_spill 2 (by norm_num) [true, true, false] 700 10).1.1

/-- C3 witness: the truncation formula applied at 2 Hz with 3 active modes:
1500 samples per period. -/
theorem samples_per_period_truncates_witness :
    (0 : ℚ) < 2 ∧
    samples_per_period 2 3 = ⌊(1000 * (max 3 1 : ℕ) : ℚ) / 2⌋ := by
  refine ⟨by norm_num, ?_⟩
  exact (samples_per_period_truncates 2 (by norm_num) 3).1

/-- C5 witness: the amended restart behaviour applied to a live controller at
100 Hz. -/
theorem start_task_while_running_arms_new_witness :
    (⟨true, true, some [7], [7]⟩ : DAQState).running = true ∧
    (100 : ℚ) ≠ 0 ∧
    (start_task ⟨true, true, some [7], [7]⟩ 100 [true, true, false] 5 5).1
      = Except.ok true := by
  refine ⟨rfl, by norm_num, ?_⟩
  exact (start_task_while_running_arms_new ⟨true, true, some [7], [7]⟩ rfl 100
    (by norm_num) [true, true, false] 5 5).1

/-- C7 witness: the timeout formula at 2 Hz: 750 ms. -/
theorem set_frame_timeout_formula_witness :
    (0 : ℚ) < 2 ∧ set_frame_timeout 2 = ⌊(1500 : ℚ) / 2⌋ := by
  refine ⟨by norm_num, ?_⟩
  exact set_frame_timeout_formula 2 (by norm_num)

end O2acq
